import Mathlib

/-!
Verification of the content lifecycle engine of the pmp-file-api repository:
a shallow embedding in Lean 4 of the metadata model (`src/metadata.rs`),
share links (`src/sharing.rs`), the deduplication manager
(`src/deduplication.rs`), the versioning service (`src/versioning.rs`),
the file cache (`src/caching.rs`) and the local storage backend
(`src/storage/local.rs`), together with proofs and refutations of the
specified properties.

Modelling conventions:
* Rust `Bytes` is `List Nat` (one `Nat` per byte).
* `chrono::DateTime<Utc>` is `Int` (a timestamp); `Utc::now()` inside a
  Rust method becomes an explicit `now : Int` argument.
* `uuid::Uuid` is `Nat`; `Uuid::new_v4()` becomes an explicit
  `fresh : Nat` argument supplying the freshly generated value.
* `u32`/`u64` counters (`version`, `download_count`, `size`) are `Nat`:
  the only arithmetic performed on them is `+ 1`, which in Rust panics on
  overflow in debug builds rather than producing a wrong value, so the
  wrap-around of release builds is never the specified behaviour.
* Fallible Rust functions returning `Result` become `Except ApiError`.
* The in-memory `HashMap`s (dedup hash index, share-link registry) and
  the storage backends are modelled as association lists with
  overwrite-on-insert semantics, matching map behaviour.
-/

/-- Raw payload bytes (`bytes::Bytes`): a list of byte values. -/
abbrev Bytes := List Nat

/-- The error kinds used by the operations modelled here
(`src/error.rs`, variants not exercised by these claims are omitted
from the model but the constructors used are named as in the source). -/
inductive ApiError where
  | FileNotFound : String → ApiError
  | NotFound : String → ApiError
  | Storage : String → ApiError
deriving Repr, DecidableEq

/-- `FileMetadata` (`src/metadata.rs`): one record per logical object
version.  The open JSON `custom` document is modelled as an association
list of string pairs; no claim inspects it. -/
structure FileMetadata where
  file_name : String
  content_type : Option String
  size : Nat
  created_at : Int
  updated_at : Int
  custom : List (String × String)
  version : Nat
  version_id : Option Nat
  parent_version_id : Option Nat
  tags : List String
  is_deleted : Bool
  deleted_at : Option Int
  content_hash : Option String
deriving Repr, DecidableEq

namespace FileMetadata

/-- `FileMetadata::new` (`src/metadata.rs:44`): `now` is the value of
`Utc::now()`, `fresh` the value of `Uuid::new_v4()`. -/
def new (file_name : String) (size : Nat) (now : Int) (fresh : Nat) : FileMetadata :=
  { file_name := file_name
    content_type := none
    size := size
    created_at := now
    updated_at := now
    custom := []
    version := 1
    version_id := some fresh
    parent_version_id := none
    tags := []
    is_deleted := false
    deleted_at := none
    content_hash := none }

/-- `FileMetadata::create_new_version` (`src/metadata.rs:83`). -/
def create_new_version (self : FileMetadata) (now : Int) (fresh : Nat) : FileMetadata :=
  { file_name := self.file_name
    content_type := self.content_type
    size := self.size
    created_at := now
    updated_at := now
    custom := self.custom
    version := self.version + 1
    version_id := some fresh
    parent_version_id := self.version_id
    tags := self.tags
    is_deleted := false
    deleted_at := none
    content_hash := none }

/-- `FileMetadata::soft_delete` (`src/metadata.rs:102`); the Rust method
mutates in place, modelled as returning the updated record. -/
def soft_delete (self : FileMetadata) (now : Int) : FileMetadata :=
  { self with is_deleted := true, deleted_at := some now, updated_at := now }

/-- `FileMetadata::restore` (`src/metadata.rs:108`); the Rust method
mutates in place, modelled as returning the updated record. -/
def restore (self : FileMetadata) (now : Int) : FileMetadata :=
  { self with is_deleted := false, deleted_at := none, updated_at := now }

/-- The soft-delete consistency invariant of the metadata model:
`deleted_at` is set (Some) exactly when `is_deleted` is true. -/
def deletedAtConsistent (m : FileMetadata) : Prop :=
  m.deleted_at.isSome = m.is_deleted

instance (m : FileMetadata) : Decidable m.deletedAtConsistent := by
  unfold deletedAtConsistent; infer_instance

end FileMetadata

/-- `ShareLink` (`src/sharing.rs:13`). -/
structure ShareLink where
  id : String
  storage_name : String
  file_key : String
  created_at : Int
  expires_at : Int
  max_downloads : Option Nat
  download_count : Nat
  password : Option String
  is_upload_link : Bool
deriving Repr, DecidableEq

namespace ShareLink

/-- `ShareLink::new` (`src/sharing.rs:26`): `now` is the value of
`Utc::now()`, `freshId` the value of `Uuid::new_v4().to_string()`. -/
def new (storage_name : String) (file_key : String) (expires_in_seconds : Int)
    (max_downloads : Option Nat) (password : Option String)
    (is_upload_link : Bool) (now : Int) (freshId : String) : ShareLink :=
  { id := freshId
    storage_name := storage_name
    file_key := file_key
    created_at := now
    expires_at := now + expires_in_seconds
    max_downloads := max_downloads
    download_count := 0
    password := password
    is_upload_link := is_upload_link }

/-- `ShareLink::is_valid` (`src/sharing.rs:48`): `now` is the value of
`Utc::now()` sampled inside the method. -/
def is_valid (self : ShareLink) (now : Int) : Bool :=
  if now > self.expires_at then
    false
  else
    match self.max_downloads with
    | some max => if self.download_count ≥ max then false else true
    | none => true

/-- `ShareLink::increment_downloads` (`src/sharing.rs:66`). -/
def increment_downloads (self : ShareLink) : ShareLink :=
  { self with download_count := self.download_count + 1 }

/-- `ShareLink::verify_password` (`src/sharing.rs:70`). -/
def verify_password (self : ShareLink) (password : String) : Bool :=
  match self.password with
  | some stored_password => stored_password == password
  | none => true

end ShareLink

/- ===================== Claim C2 ===================== -/

/-- C2 (corrected), counterexample to the claim as stated: a link whose
`expires_at` instant equals the evaluation time `now` is still reported
valid by `is_valid` (the code tests `now > expires_at`, not
`now ≥ expires_at`), contradicting the claimed
`valid iff now < expires_at` and in particular the claim that a link
evaluated exactly at its `expires_at` instant is invalid. -/
theorem shareLink_is_valid_at_expiry_counterexample :
    (ShareLink.new "s" "f" 0 none none false 0 "id").is_valid 0 = true ∧
      ¬((0 : Int) < (ShareLink.new "s" "f" 0 none none false 0 "id").expires_at) := by
  constructor
  · rfl
  · decide

/-- C2 (amended): for every `ShareLink` and every evaluation time `now`,
`is_valid` returns true iff `now ≤ expires_at` and (`max_downloads` is
unset or `download_count < max_downloads`); a link evaluated exactly at
its `expires_at` instant is therefore still valid. -/
theorem shareLink_is_valid_iff (l : ShareLink) (now : Int) :
    l.is_valid now = true ↔
      (now ≤ l.expires_at ∧ ∀ max, l.max_downloads = some max → l.download_count < max) := by
  unfold ShareLink.is_valid
  constructor
  · intro hv
    by_cases h : now > l.expires_at
    · rw [if_pos h] at hv
      cases hv
    · refine ⟨by omega, ?_⟩
      intro max hmax
      rw [if_neg h, hmax] at hv
      have hv2 : (if l.download_count ≥ max then false else true) = true := hv
      by_cases hc : l.download_count ≥ max
      · rw [if_pos hc] at hv2
        cases hv2
      · omega
  · rintro ⟨h1, h2⟩
    rw [if_neg (by omega)]
    cases hm : l.max_downloads with
    | none => rfl
    | some max =>
      have hlt := h2 max hm
      show (if l.download_count ≥ max then false else true) = true
      rw [if_neg (by omega)]

/-- C2 witness: the amended equivalence at a concrete link and time. -/
theorem shareLink_is_valid_iff_witness :
    (ShareLink.new "s" "f" 10 (some 2) none false 0 "id").is_valid 3 = true ↔
      ((3 : Int) ≤ (ShareLink.new "s" "f" 10 (some 2) none false 0 "id").expires_at ∧
        ∀ max, (ShareLink.new "s" "f" 10 (some 2) none false 0 "id").max_downloads = some max →
          (ShareLink.new "s" "f" 10 (some 2) none false 0 "id").download_count < max) :=
  shareLink_is_valid_iff (ShareLink.new "s" "f" 10 (some 2) none false 0 "id") 3

/- ===================== Claim C3 ===================== -/

/-- C3: `create_new_version` on a base record with version `v` yields a
record with version `v + 1`, a fresh `version_id` distinct from the
base's (`Uuid::new_v4` is modelled by the supplied `fresh` value, with
the genuine-freshness side condition as a hypothesis), and
`parent_version_id` equal to the base's `version_id`. -/
theorem create_new_version_spec (base : FileMetadata) (now : Int) (fresh : Nat)
    (hfresh : base.version_id ≠ some fresh) :
    (base.create_new_version now fresh).version = base.version + 1 ∧
      (base.create_new_version now fresh).version_id = some fresh ∧
      (base.create_new_version now fresh).version_id ≠ base.version_id ∧
      (base.create_new_version now fresh).parent_version_id = base.version_id := by
  refine ⟨rfl, rfl, ?_, rfl⟩
  unfold FileMetadata.create_new_version
  simp only
  intro h
  exact hfresh h.symm

/-- C3 witness: the versioning step at a concrete record and fresh id. -/
theorem create_new_version_spec_witness :
    ((FileMetadata.new "f" 3 0 7).create_new_version 1 8).version =
        (FileMetadata.new "f" 3 0 7).version + 1 ∧
      ((FileMetadata.new "f" 3 0 7).create_new_version 1 8).version_id = some 8 ∧
      ((FileMetadata.new "f" 3 0 7).create_new_version 1 8).version_id ≠
        (FileMetadata.new "f" 3 0 7).version_id ∧
      ((FileMetadata.new "f" 3 0 7).create_new_version 1 8).parent_version_id =
        (FileMetadata.new "f" 3 0 7).version_id :=
  create_new_version_spec (FileMetadata.new "f" 3 0 7) 1 8 (by decide)

/- ===================== Claim C9 ===================== -/

/-- C9: every public constructor and mutator of `FileMetadata`
(`new`, `create_new_version`, `soft_delete`, `restore`) produces a
record satisfying the invariant that `deleted_at` is set iff
`is_deleted` is true. -/
theorem metadata_deletedAt_consistent :
    (∀ (name : String) (size : Nat) (now : Int) (fresh : Nat),
        (FileMetadata.new name size now fresh).deletedAtConsistent) ∧
      (∀ (m : FileMetadata) (now : Int) (fresh : Nat),
        (m.create_new_version now fresh).deletedAtConsistent) ∧
      (∀ (m : FileMetadata) (now : Int), (m.soft_delete now).deletedAtConsistent) ∧
      (∀ (m : FileMetadata) (now : Int), (m.restore now).deletedAtConsistent) := by
  refine ⟨fun _ _ _ _ => rfl, fun _ _ _ => rfl, fun _ _ => rfl, fun _ _ => rfl⟩

/- ===================== Storage model ===================== -/

/-- `str::starts_with`: an executable model by character-list prefix;
agrees with `String.startsWith` but reduces in the kernel. -/
def strStartsWith (s p : String) : Bool :=
  p.data.isPrefixOf s.data

/-- Model of the `Storage` trait contract (`src/storage/mod.rs`, spec
section 4.1), the interface the deduplication and versioning services
are generic over: an idealized backend with map semantics.  `put`
overwrites the payload/metadata pair at `key`, `get` fails with
`FileNotFound` when the key is absent, `list` returns the metadata of
every entry whose key matches the prefix (all entries when the prefix
is absent). -/
structure StorageState where
  entries : List (String × Bytes × FileMetadata)
deriving Repr, DecidableEq

namespace StorageState

/-- `Storage::put`: overwrite semantics at `key`. -/
def put (s : StorageState) (key : String) (data : Bytes) (metadata : FileMetadata) :
    StorageState :=
  ⟨(key, data, metadata) :: s.entries.filter (fun e => e.1 ≠ key)⟩

/-- `Storage::get`: the stored pair, or `FileNotFound`. -/
def get (s : StorageState) (key : String) : Except ApiError (Bytes × FileMetadata) :=
  match s.entries.find? (fun e => e.1 == key) with
  | some e => .ok (e.2.1, e.2.2)
  | none => .error (.FileNotFound key)

/-- `Storage::list`: metadata of every entry whose key starts with the
given prefix (every entry when no prefix is given). -/
def list (s : StorageState) (pre : Option String) : List FileMetadata :=
  match pre with
  | some p => (s.entries.filter (fun e => strStartsWith e.1 p)).map (fun e => e.2.2)
  | none => s.entries.map (fun e => e.2.2)

end StorageState

/- ===================== Deduplication (src/deduplication.rs) ===================== -/

/-- One hex digit (lower-case), as produced by `hex::encode`. -/
def hexDigitChar (n : Nat) : Char :=
  if n < 10 then Char.ofNat (48 + n) else Char.ofNat (87 + n)

/-- Two hex digits for one byte value. -/
def byteToHex (b : Nat) : List Char :=
  [hexDigitChar (b / 16 % 16), hexDigitChar (b % 16)]

/-- `compute_hash` (`src/deduplication.rs:14`): the SHA-256 hex digest of
the payload, computed by the external `sha2` crate.  The external hash
is modelled as an executable, deterministic and injective digest — the
hex encoding of the payload bytes themselves; every claim proved here
relies only on `compute_hash` being a function of the content, never on
properties specific to SHA-256. -/
def compute_hash (data : Bytes) : String :=
  String.mk (data.foldr (fun b acc => byteToHex b ++ acc) [])

/-- `DeduplicationManager` (`src/deduplication.rs:21`): the in-memory
hash-to-key index (a `HashMap` modelled as an association list whose
`lookup` sees the most recent insertion) together with the storage
backend it wraps. -/
structure DedupState where
  hashMap : List (String × String)
  storage : StorageState
deriving Repr, DecidableEq

namespace DedupState

/-- `DeduplicationManager::put_deduplicated` (`src/deduplication.rs:35`).
Returns `(deduplicated, metadata)` and the updated manager state.  In
the unique-content branch the Rust code inserts `hash -> key` into the
`HashMap`; since the lookup just returned `None`, consing onto the
association list is exactly that insertion. -/
def put_deduplicated (st : DedupState) (key : String) (data : Bytes)
    (metadata : FileMetadata) : (Bool × FileMetadata) × DedupState :=
  let hash := compute_hash data
  let metadata := { metadata with content_hash := some hash }
  match st.hashMap.lookup hash with
  | some _existing_key =>
      ((true, metadata), { st with storage := st.storage.put key [] metadata })
  | none =>
      ((false, metadata),
        { hashMap := (hash, key) :: st.hashMap,
          storage := st.storage.put key data metadata })

/-- `DeduplicationManager::get_deduplicated` (`src/deduplication.rs:74`):
follow the deduplication reference when the stored payload is empty,
the metadata carries a hash, and the canonical key differs. -/
def get_deduplicated (st : DedupState) (key : String) :
    Except ApiError (Bytes × FileMetadata) :=
  match st.storage.get key with
  | .error e => .error e
  | .ok (data, metadata) =>
    if data.isEmpty && metadata.content_hash.isSome then
      match metadata.content_hash with
      | some hash =>
        match st.hashMap.lookup hash with
        | some original_key =>
          if original_key != key then
            match st.storage.get original_key with
            | .ok (original_data, _) => .ok (original_data, metadata)
            | .error e => .error e
          else .ok (data, metadata)
        | none => .ok (data, metadata)
      | none => .ok (data, metadata)
    else .ok (data, metadata)

/-- The loop body of `DeduplicationManager::rebuild_index`
(`src/deduplication.rs:124`): walk the listed records, indexing
`content_hash -> file_name` for every record whose metadata `size` is
positive, counting each insertion.  `HashMap::insert` replaces an
existing entry for the same hash; consing onto the association list
gives the same last-writer-wins lookup behaviour. -/
def rebuildIndexAux : List FileMetadata → List (String × String) → Nat →
    List (String × String) × Nat
  | [], hm, count => (hm, count)
  | m :: files, hm, count =>
    match m.content_hash with
    | some hash =>
        if m.size > 0 then rebuildIndexAux files ((hash, m.file_name) :: hm) (count + 1)
        else rebuildIndexAux files hm count
    | none => rebuildIndexAux files hm count

/-- `DeduplicationManager::rebuild_index` (`src/deduplication.rs:124`):
clear the index, re-scan all records, return the number indexed. -/
def rebuild_index (st : DedupState) : Nat × DedupState :=
  let files := st.storage.list none
  let r := rebuildIndexAux files [] 0
  (r.2, { st with hashMap := r.1 })

end DedupState

/- ===================== Claim C1 ===================== -/

/-- The manager state after the first `put_deduplicated(A, C, m1)` on a
fresh `DeduplicationManager` (empty hash index) over `storage`. -/
def dedupAfterFirstPut (storage : StorageState) (A : String) (C : Bytes)
    (m1 : FileMetadata) : (Bool × FileMetadata) × DedupState :=
  DedupState.put_deduplicated { hashMap := [], storage := storage } A C m1

/-- The manager state after a subsequent `put_deduplicated(B, C, m2)`
with the same content `C`. -/
def dedupAfterSecondPut (storage : StorageState) (A B : String) (C : Bytes)
    (m1 m2 : FileMetadata) : (Bool × FileMetadata) × DedupState :=
  (dedupAfterFirstPut storage A C m1).2.put_deduplicated B C m2

/-- C1: on a fresh `DeduplicationManager`, the first
`put_deduplicated(A, C, m1)` reports `deduplicated = false` and stores
the full bytes `C` under `A`; the second `put_deduplicated(B, C, m2)`
with the same content and a distinct key reports `deduplicated = true`
and stores an empty placeholder under `B`; afterwards
`get_deduplicated(B)` returns bytes byte-equal to `get_deduplicated(A)`
(both return exactly `C`). -/
theorem dedup_put_get_roundtrip (storage : StorageState) (A B : String) (C : Bytes)
    (m1 m2 : FileMetadata) (hAB : A ≠ B) :
    (dedupAfterFirstPut storage A C m1).1.1 = false ∧
      (dedupAfterFirstPut storage A C m1).2.storage.get A =
        .ok (C, { m1 with content_hash := some (compute_hash C) }) ∧
      (dedupAfterSecondPut storage A B C m1 m2).1.1 = true ∧
      (dedupAfterSecondPut storage A B C m1 m2).2.storage.get B =
        .ok ([], { m2 with content_hash := some (compute_hash C) }) ∧
      (dedupAfterSecondPut storage A B C m1 m2).2.get_deduplicated A =
        .ok (C, { m1 with content_hash := some (compute_hash C) }) ∧
      (dedupAfterSecondPut storage A B C m1 m2).2.get_deduplicated B =
        .ok (C, { m2 with content_hash := some (compute_hash C) }) := by
  have hAA : (A == A) = true := by simp
  have hBB : (B == B) = true := by simp
  have hBA : (B == A) = false := by simp [Ne.symm hAB]
  have hABf : (A == B) = false := by simp [hAB]
  have hhh : (compute_hash C == compute_hash C) = true := by simp
  refine ⟨?_, ?_, ?_, ?_, ?_, ?_⟩
  · simp [dedupAfterFirstPut, DedupState.put_deduplicated, List.lookup]
  · simp [dedupAfterFirstPut, DedupState.put_deduplicated, List.lookup,
      StorageState.put, StorageState.get, List.find?, hAA]
  · simp [dedupAfterSecondPut, dedupAfterFirstPut, DedupState.put_deduplicated,
      List.lookup, hhh]
  · simp [dedupAfterSecondPut, dedupAfterFirstPut, DedupState.put_deduplicated,
      List.lookup, hhh, StorageState.put, StorageState.get, List.find?, hBB]
  · cases C with
    | nil =>
      simp [dedupAfterSecondPut, dedupAfterFirstPut, DedupState.put_deduplicated,
        DedupState.get_deduplicated, List.lookup, hhh, StorageState.put,
        StorageState.get, List.find?, List.filter, hAA, hBA, hAB, hABf]
    | cons c cs =>
      simp [dedupAfterSecondPut, dedupAfterFirstPut, DedupState.put_deduplicated,
        DedupState.get_deduplicated, List.lookup, hhh, StorageState.put,
        StorageState.get, List.find?, List.filter, hAA, hBA, hAB, hABf]
  · cases C with
    | nil =>
      simp [dedupAfterSecondPut, dedupAfterFirstPut, DedupState.put_deduplicated,
        DedupState.get_deduplicated, List.lookup, hhh, StorageState.put,
        StorageState.get, List.find?, List.filter, hAA, hBB, hBA, hAB, hABf]
    | cons c cs =>
      simp [dedupAfterSecondPut, dedupAfterFirstPut, DedupState.put_deduplicated,
        DedupState.get_deduplicated, List.lookup, hhh, StorageState.put,
        StorageState.get, List.find?, List.filter, hAA, hBB, hBA, hAB, hABf]

/-- C1 witness: the round trip at a concrete storage, keys, content and
metadata. -/
theorem dedup_put_get_roundtrip_witness :
    (dedupAfterFirstPut ⟨[]⟩ "a" [1, 2] (FileMetadata.new "a" 2 0 1)).1.1 = false ∧
      (dedupAfterFirstPut ⟨[]⟩ "a" [1, 2] (FileMetadata.new "a" 2 0 1)).2.storage.get "a" =
        .ok ([1, 2], { FileMetadata.new "a" 2 0 1 with content_hash := some (compute_hash [1, 2]) }) ∧
      (dedupAfterSecondPut ⟨[]⟩ "a" "b" [1, 2] (FileMetadata.new "a" 2 0 1)
          (FileMetadata.new "b" 2 0 2)).1.1 = true ∧
      (dedupAfterSecondPut ⟨[]⟩ "a" "b" [1, 2] (FileMetadata.new "a" 2 0 1)
          (FileMetadata.new "b" 2 0 2)).2.storage.get "b" =
        .ok ([], { FileMetadata.new "b" 2 0 2 with content_hash := some (compute_hash [1, 2]) }) ∧
      (dedupAfterSecondPut ⟨[]⟩ "a" "b" [1, 2] (FileMetadata.new "a" 2 0 1)
          (FileMetadata.new "b" 2 0 2)).2.get_deduplicated "a" =
        .ok ([1, 2], { FileMetadata.new "a" 2 0 1 with content_hash := some (compute_hash [1, 2]) }) ∧
      (dedupAfterSecondPut ⟨[]⟩ "a" "b" [1, 2] (FileMetadata.new "a" 2 0 1)
          (FileMetadata.new "b" 2 0 2)).2.get_deduplicated "b" =
        .ok ([1, 2], { FileMetadata.new "b" 2 0 2 with content_hash := some (compute_hash [1, 2]) }) :=
  dedup_put_get_roundtrip ⟨[]⟩ "a" "b" [1, 2] (FileMetadata.new "a" 2 0 1)
    (FileMetadata.new "b" 2 0 2) (by decide)

/- ===================== Claim C10 ===================== -/

/-- C10: when the content `C` is already indexed with canonical key `K`,
a further `put_deduplicated(K, C, m)` for that same key `K` reports
`deduplicated = true` and overwrites `K`'s stored payload with an empty
placeholder; the subsequent `get_deduplicated(K)` then returns empty
bytes rather than `C`, because the reference-resolution step only
re-fetches when the canonical key differs from the requested key. -/
theorem dedup_self_reference_shadows (st : DedupState) (K : String) (C : Bytes)
    (m : FileMetadata) (hidx : st.hashMap.lookup (compute_hash C) = some K)
    (hC : C ≠ []) :
    (st.put_deduplicated K C m).1.1 = true ∧
      (st.put_deduplicated K C m).2.storage.get K =
        .ok ([], { m with content_hash := some (compute_hash C) }) ∧
      (st.put_deduplicated K C m).2.get_deduplicated K =
        .ok ([], { m with content_hash := some (compute_hash C) }) ∧
      ([] : Bytes) ≠ C := by
  have hKK : (K == K) = true := by simp
  have hKne : (K != K) = false := by simp
  refine ⟨?_, ?_, ?_, fun h => hC h.symm⟩
  · simp [DedupState.put_deduplicated, hidx]
  · simp [DedupState.put_deduplicated, hidx, StorageState.put, StorageState.get,
      List.find?, hKK]
  · simp [DedupState.put_deduplicated, DedupState.get_deduplicated, hidx,
      StorageState.put, StorageState.get, List.find?, hKK, hKne]

/-- C10 witness: the shadowing put at a concrete indexed state. -/
theorem dedup_self_reference_shadows_witness :
    ((⟨[(compute_hash [1, 2], "k")], ⟨[("k", [1, 2], FileMetadata.new "k" 2 0 1)]⟩⟩ :
        DedupState).put_deduplicated "k" [1, 2] (FileMetadata.new "k" 2 0 3)).1.1 = true ∧
      ((⟨[(compute_hash [1, 2], "k")], ⟨[("k", [1, 2], FileMetadata.new "k" 2 0 1)]⟩⟩ :
          DedupState).put_deduplicated "k" [1, 2] (FileMetadata.new "k" 2 0 3)).2.storage.get "k" =
        .ok ([], { FileMetadata.new "k" 2 0 3 with content_hash := some (compute_hash [1, 2]) }) ∧
      ((⟨[(compute_hash [1, 2], "k")], ⟨[("k", [1, 2], FileMetadata.new "k" 2 0 1)]⟩⟩ :
          DedupState).put_deduplicated "k" [1, 2] (FileMetadata.new "k" 2 0 3)).2.get_deduplicated "k" =
        .ok ([], { FileMetadata.new "k" 2 0 3 with content_hash := some (compute_hash [1, 2]) }) ∧
      ([] : Bytes) ≠ [1, 2] :=
  dedup_self_reference_shadows
    ⟨[(compute_hash [1, 2], "k")], ⟨[("k", [1, 2], FileMetadata.new "k" 2 0 1)]⟩⟩
    "k" [1, 2] (FileMetadata.new "k" 2 0 3) (by decide) (by decide)

/- ===================== Claim C8 ===================== -/

/-- Lookup success in the index built by the `rebuild_index` loop,
characterised over an arbitrary starting accumulator. -/
theorem rebuildIndexAux_lookup_isSome (files : List FileMetadata)
    (hm : List (String × String)) (count : Nat) (h : String) :
    (((DedupState.rebuildIndexAux files hm count).1.lookup h).isSome = true) ↔
      ((hm.lookup h).isSome = true ∨
        ∃ m ∈ files, m.content_hash = some h ∧ 0 < m.size) := by
  induction files generalizing hm count with
  | nil => simp [DedupState.rebuildIndexAux]
  | cons m rest ih =>
    unfold DedupState.rebuildIndexAux
    cases hch : m.content_hash with
    | none =>
      rw [ih]
      simp [hch]
    | some hh =>
      dsimp only
      by_cases hs : m.size > 0
      · rw [if_pos hs, ih]
        by_cases hhh : h = hh
        · subst hhh
          simp [List.lookup, hch, hs]
        · have hne : ¬hh = h := fun hc => hhh hc.symm
          have hbe : (h == hh) = false := by simp [hhh]
          simp [List.lookup, hbe, hhh, hne, hch]
      · rw [if_neg hs, ih]
        simp [hch, hs]

/-- The count returned by the `rebuild_index` loop, characterised over
an arbitrary starting accumulator. -/
theorem rebuildIndexAux_count (files : List FileMetadata)
    (hm : List (String × String)) (count : Nat) :
    (DedupState.rebuildIndexAux files hm count).2 =
      count + (files.filter (fun m => m.content_hash.isSome && decide (0 < m.size))).length := by
  induction files generalizing hm count with
  | nil => simp [DedupState.rebuildIndexAux]
  | cons m rest ih =>
    unfold DedupState.rebuildIndexAux
    cases hch : m.content_hash with
    | none => rw [ih]; simp [List.filter, hch]
    | some hh =>
      dsimp only
      by_cases hs : m.size > 0
      · rw [if_pos hs, ih]
        simp [List.filter, hch, hs]
        omega
      · rw [if_neg hs, ih]
        simp [List.filter, hch, hs]

/-- A storage state holding a single deduplication placeholder: the
stored payload is empty while the metadata still records the original
positive `size` and the content hash — exactly the record
`put_deduplicated` writes for a duplicate (it stores `Bytes::new()`
under the new key but leaves the caller's `metadata.size` untouched). -/
def c8State : DedupState :=
  ⟨[], ⟨[("b", [], { FileMetadata.new "b" 5 0 2 with content_hash := some "h" })]⟩⟩

/-- C8 (corrected), counterexample to the claim as stated: after
`rebuild_index` on a storage whose only record is a deduplication
placeholder (empty stored payload, metadata `size = 5`,
`content_hash = some "h"`), the index does contain an entry for `"h"`
even though no listed record has a non-empty stored payload — the code
filters on the metadata `size` field, not on the stored bytes. -/
theorem rebuild_index_indexes_empty_payload :
    (c8State.rebuild_index.2.hashMap.lookup "h" = some "b") ∧
      ∀ e ∈ c8State.storage.entries, e.2.1 = ([] : Bytes) := by
  constructor
  · rfl
  · decide

/-- C8 (amended): after `rebuild_index()`, the hash index contains an
entry for hash `h` iff some listed record with a positive metadata
`size` field carries `content_hash = h` (the metadata `size` is what is
tested, not the stored payload, so a placeholder whose metadata retains
the original nonzero size is indexed); the returned count equals the
number of listed records carrying a `content_hash` and a positive
`size`. -/
theorem rebuild_index_spec (st : DedupState) :
    (∀ h : String,
        ((st.rebuild_index.2.hashMap.lookup h).isSome = true ↔
          ∃ m ∈ st.storage.list none, m.content_hash = some h ∧ 0 < m.size)) ∧
      st.rebuild_index.1 =
        ((st.storage.list none).filter
          (fun m => m.content_hash.isSome && decide (0 < m.size))).length := by
  constructor
  · intro h
    unfold DedupState.rebuild_index
    rw [rebuildIndexAux_lookup_isSome]
    simp [List.lookup]
  · simp only [DedupState.rebuild_index]
    rw [rebuildIndexAux_count]
    simp

/-- C8 witness: the amended characterisation evaluated at the concrete
placeholder state. -/
theorem rebuild_index_spec_witness :
    (∀ h : String,
        ((c8State.rebuild_index.2.hashMap.lookup h).isSome = true ↔
          ∃ m ∈ c8State.storage.list none, m.content_hash = some h ∧ 0 < m.size)) ∧
      c8State.rebuild_index.1 =
        ((c8State.storage.list none).filter
          (fun m => m.content_hash.isSome && decide (0 < m.size))).length :=
  rebuild_index_spec c8State

/- ===================== Versioning (src/versioning.rs) ===================== -/

namespace VersioningService

/-- `VersioningService::get_version_key` (`src/versioning.rs:102`):
the synthetic versioned key `"{key}.v{version}.{version_id}"`. -/
def get_version_key (key : String) (metadata : FileMetadata) : String :=
  match metadata.version_id with
  | some version_id =>
      key ++ ".v" ++ toString metadata.version ++ "." ++ toString version_id
  | none => key

/-- `VersioningService::create_version` (`src/versioning.rs:21`):
derive the new metadata, store the payload under the versioned key,
then overwrite the plain key with an empty payload and the new
metadata (the "latest" pointer). -/
def create_version (st : StorageState) (key : String) (data : Bytes)
    (base_metadata : FileMetadata) (now : Int) (fresh : Nat) :
    FileMetadata × StorageState :=
  let new_metadata := base_metadata.create_new_version now fresh
  let version_key := get_version_key key new_metadata
  let st1 := st.put version_key data new_metadata
  let st2 := st1.put key [] new_metadata
  (new_metadata, st2)

/-- One insertion step of a stable sort by `version` descending. -/
def insertByVersionDesc (m : FileMetadata) : List FileMetadata → List FileMetadata
  | [] => [m]
  | x :: xs => if x.version > m.version then x :: insertByVersionDesc m xs else m :: x :: xs

/-- `versions.sort_by(|a, b| b.version.cmp(&a.version))`
(`src/versioning.rs:74`): Rust's `sort_by` is a stable sort by the
given comparator; a stable insertion sort realizes exactly that
specification and is kernel-reducible. -/
def sortByVersionDesc : List FileMetadata → List FileMetadata
  | [] => []
  | x :: xs => insertByVersionDesc x (sortByVersionDesc xs)

/-- `VersioningService::list_versions` (`src/versioning.rs:63`):
list records under the prefix `"{key}."`, keep those whose metadata
`file_name` starts with the prefix and which carry a `version_id`,
sort by `version` descending. -/
def list_versions (st : StorageState) (key : String) : List FileMetadata :=
  let pre := key ++ "."
  let all_files := st.list (some pre)
  let versions := all_files.filter
    (fun m => strStartsWith m.file_name pre && m.version_id.isSome)
  sortByVersionDesc versions

/-- `VersioningService::get_version` (`src/versioning.rs:45`):
linear scan of `list_versions` for the matching `version_id`, then a
fetch of that versioned key. -/
def get_version (st : StorageState) (key : String) (version_id : Nat) :
    Except ApiError (Bytes × FileMetadata) :=
  match (list_versions st key).find? (fun m => m.version_id == some version_id) with
  | some metadata => st.get (get_version_key key metadata)
  | none =>
      .error (.NotFound ("Version " ++ toString version_id ++ " not found for file " ++ key))

/-- `VersioningService::restore_version` (`src/versioning.rs:93`):
fetch the target version's bytes, then `create_version` again with the
current latest metadata as the base. -/
def restore_version (st : StorageState) (key : String) (version_id : Nat)
    (now : Int) (fresh : Nat) : Except ApiError (FileMetadata × StorageState) :=
  match get_version st key version_id with
  | .error e => .error e
  | .ok (data, _old_metadata) =>
    match st.get key with
    | .error e => .error e
    | .ok (_, current_metadata) =>
        .ok (create_version st key data current_metadata now fresh)

end VersioningService

/- ===================== Claim C4 ===================== -/

/-- The base record at key `"k"`: `file_name` is the plain key, as the
upload handler creates it. -/
def c4Base : FileMetadata := FileMetadata.new "k" 1 0 1

/-- A storage state produced by the versioning service itself: the base
record is stored at `"k"`, then `create_version` stores version 2 under
the versioned key `"k.v2.7"`. -/
def c4State : StorageState :=
  (VersioningService.create_version (StorageState.put ⟨[]⟩ "k" [1] c4Base)
    "k" [2] c4Base 5 7).2

/-- C4 (code bug), the code evaluated at the failing input: after
`create_version` stores version 2 under the versioned key `"k.v2.7"`,
that record's stored key starts with `"k."` and it carries a
`version_id`, yet `list_versions("k")` returns the empty list — the
code filters on the metadata `file_name` (which `create_new_version`
leaves at the base's `"k"`, not the versioned key), so no record
created by the service ever passes the filter, contradicting the
specified key-prefix selection and the code's own (ignored) test that
expects one listed version. -/
theorem list_versions_misses_created_versions :
    VersioningService.list_versions c4State "k" = [] ∧
      ∃ e ∈ c4State.entries,
        strStartsWith e.1 "k." = true ∧ e.2.2.version_id.isSome = true := by
  constructor
  · rfl
  · decide

/- ===================== Claim C6 ===================== -/

/-- A versioned key is never the plain key: when the metadata carries a
`version_id`, `get_version_key` appends a nonempty suffix. -/
theorem get_version_key_ne (key : String) (m : FileMetadata) (vid : Nat)
    (hv : m.version_id = some vid) :
    VersioningService.get_version_key key m ≠ key := by
  unfold VersioningService.get_version_key
  rw [hv]
  intro heq
  have hlen := congrArg (fun s : String => s.data.length) heq
  simp only [String.data_append, List.length_append, List.length_cons,
    List.length_nil] at hlen
  omega

/-- C6: whenever `get_version(key, old_id)` succeeds with bytes `vdata`
and the plain key holds the current latest metadata `cur`,
`restore_version(key, old_id)` succeeds and creates a brand-new version
from `cur`: its version is `cur.version + 1` (strictly greater than the
current latest), its parent is `cur.version_id`, and the bytes stored
under the new versioned key are exactly `vdata`, the bytes stored for
`old_id` — history is extended, not rewound. -/
theorem restore_version_spec (st : StorageState) (key : String) (vid : Nat)
    (now : Int) (fresh : Nat) (vdata : Bytes) (vmeta : FileMetadata)
    (curData : Bytes) (cur : FileMetadata)
    (hget : VersioningService.get_version st key vid = .ok (vdata, vmeta))
    (hcur : st.get key = .ok (curData, cur)) :
    ∃ st2 : StorageState,
      VersioningService.restore_version st key vid now fresh =
        .ok (cur.create_new_version now fresh, st2) ∧
      (cur.create_new_version now fresh).version = cur.version + 1 ∧
      cur.version < (cur.create_new_version now fresh).version ∧
      (cur.create_new_version now fresh).parent_version_id = cur.version_id ∧
      st2.get (VersioningService.get_version_key key (cur.create_new_version now fresh)) =
        .ok (vdata, cur.create_new_version now fresh) := by
  have hvid : (cur.create_new_version now fresh).version_id = some fresh := rfl
  have hkne := get_version_key_ne key (cur.create_new_version now fresh) fresh hvid
  set vk := VersioningService.get_version_key key (cur.create_new_version now fresh) with hvk
  refine ⟨((st.put vk vdata (cur.create_new_version now fresh)).put key []
      (cur.create_new_version now fresh)), ?_, rfl, Nat.lt_succ_self _, rfl, ?_⟩
  · unfold VersioningService.restore_version
    rw [hget, hcur]
    rfl
  · have hb1 : (key == vk) = false := beq_eq_false_iff_ne.mpr (Ne.symm hkne)
    have hb2 : (vk == vk) = true := by simp
    simp [StorageState.put, StorageState.get, List.find?, List.filter, hb1, hb2, hkne]

/-- A stored base record for the C6 witness: metadata whose `file_name`
begins with `"k."` (so the versioned record passes the `list_versions`
filter) at version 2 with version id 7. -/
def c6VersionMeta : FileMetadata :=
  { FileMetadata.new "k.orig" 1 0 7 with version := 2 }

/-- The C6 witness storage: a latest record at `"k"` and a versioned
record at `"k.v2.7"`. -/
def c6State : StorageState :=
  ⟨[("k", [0], FileMetadata.new "k" 1 0 1), ("k.v2.7", [9], c6VersionMeta)]⟩

/-- C6 witness: the restore at a concrete state where the target
version is found. -/
theorem restore_version_spec_witness :
    ∃ st2 : StorageState,
      VersioningService.restore_version c6State "k" 7 10 8 =
        .ok ((FileMetadata.new "k" 1 0 1).create_new_version 10 8, st2) ∧
      ((FileMetadata.new "k" 1 0 1).create_new_version 10 8).version =
        (FileMetadata.new "k" 1 0 1).version + 1 ∧
      (FileMetadata.new "k" 1 0 1).version <
        ((FileMetadata.new "k" 1 0 1).create_new_version 10 8).version ∧
      ((FileMetadata.new "k" 1 0 1).create_new_version 10 8).parent_version_id =
        (FileMetadata.new "k" 1 0 1).version_id ∧
      st2.get (VersioningService.get_version_key "k"
          ((FileMetadata.new "k" 1 0 1).create_new_version 10 8)) =
        .ok ([9], (FileMetadata.new "k" 1 0 1).create_new_version 10 8) :=
  restore_version_spec c6State "k" 7 10 8 [9] c6VersionMeta [0]
    (FileMetadata.new "k" 1 0 1) (by rfl) (by rfl)

/- ===================== Caching (src/caching.rs) ===================== -/

/-- `CacheConfig` (`src/caching.rs:19`). -/
structure CacheConfig where
  max_capacity : Nat
  ttl_seconds : Nat
  max_file_size : Nat
  enabled : Bool
deriving Repr, DecidableEq

/-- `FileCache` (`src/caching.rs:53`): the wrapped `moka` cache is
modelled as a map from key to the cached `(data, metadata)` pair
(`CachedFile`) tagged with its insertion time; `time_to_live` expiry
follows moka's rule that an entry is expired once its age reaches the
TTL.  Logical time is an explicit `Nat` parameter of `get`/`put`.
Capacity-based eviction of the external moka crate happens
asynchronously at unspecified times and is not modelled; no claim
settled here depends on it. -/
structure FileCacheState where
  config : CacheConfig
  entries : List (String × Bytes × FileMetadata × Nat)
deriving Repr, DecidableEq

namespace FileCache

/-- `FileCache::get` (`src/caching.rs:69`): nothing when disabled,
otherwise the live (non-expired) entry for the key. -/
def get (c : FileCacheState) (key : String) (now : Nat) :
    Option (Bytes × FileMetadata) :=
  if !c.config.enabled then none
  else
    match c.entries.find? (fun e => e.1 == key) with
    | some e => if now < e.2.2.2 + c.config.ttl_seconds then some (e.2.1, e.2.2.1) else none
    | none => none

/-- `FileCache::put` (`src/caching.rs:78`): a no-op when disabled or
when the payload exceeds `max_file_size`; otherwise insert/replace the
entry with the current insertion time. -/
def put (c : FileCacheState) (key : String) (data : Bytes)
    (metadata : FileMetadata) (now : Nat) : FileCacheState :=
  if !c.config.enabled then c
  else if data.length > c.config.max_file_size then c
  else { c with entries := (key, data, metadata, now) :: c.entries.filter (fun e => e.1 ≠ key) }

/-- `FileCache::invalidate` (`src/caching.rs:95`): unconditional
removal of the key's entry. -/
def invalidate (c : FileCacheState) (key : String) : FileCacheState :=
  { c with entries := c.entries.filter (fun e => e.1 ≠ key) }

/-- `FileCache::clear` (`src/caching.rs:101`): `invalidate_all`. -/
def clear (c : FileCacheState) : FileCacheState :=
  { c with entries := [] }

end FileCache

/- ===================== Claim C5 ===================== -/

/-- Searching for a key among entries filtered to exclude that key
never succeeds. -/
theorem find_key_in_filter_ne (l : List (String × Bytes × FileMetadata × Nat))
    (key : String) :
    ((l.filter (fun e => e.1 ≠ key)).find? (fun e => e.1 == key)) = none := by
  induction l with
  | nil => rfl
  | cons e rest ih =>
    by_cases h : e.1 = key
    · simp [List.filter_cons, h, ih]
    · simp [List.filter_cons, List.find?_cons, h, ih]

/-- C5: cache admission control.  A `put` whose payload exceeds
`max_file_size` leaves the cache state unchanged (so the entry is not
retrievable afterwards); on an enabled cache, a `put` within the size
limit makes the entry retrievable by `get` while its TTL has not
elapsed, and not after TTL expiry, after `invalidate`, or after
`clear`; on a disabled cache, `get` returns nothing regardless of any
prior `put`. -/
theorem fileCache_admission (c : FileCacheState) (key : String) (data : Bytes)
    (metadata : FileMetadata) (t now : Nat) :
    (data.length > c.config.max_file_size → FileCache.put c key data metadata t = c) ∧
      (c.config.enabled = true → data.length ≤ c.config.max_file_size →
        (now < t + c.config.ttl_seconds →
          FileCache.get (FileCache.put c key data metadata t) key now =
            some (data, metadata)) ∧
        (t + c.config.ttl_seconds ≤ now →
          FileCache.get (FileCache.put c key data metadata t) key now = none) ∧
        FileCache.get (FileCache.invalidate (FileCache.put c key data metadata t) key)
          key now = none ∧
        FileCache.get (FileCache.clear (FileCache.put c key data metadata t)) key now = none) ∧
      (c.config.enabled = false → FileCache.get c key now = none) := by
  refine ⟨?_, ?_, ?_⟩
  · intro hbig
    unfold FileCache.put
    by_cases he : c.config.enabled
    · simp [he, hbig]
    · simp [he]
  · intro he hsmall
    have hput : FileCache.put c key data metadata t =
        { c with entries := (key, data, metadata, t) :: c.entries.filter (fun e => e.1 ≠ key) } := by
      unfold FileCache.put
      simp [he]
      omega
    refine ⟨?_, ?_, ?_, ?_⟩
    · intro hlive
      rw [hput]
      simp [FileCache.get, he, List.find?_cons, hlive]
    · intro hdead
      rw [hput]
      simp [FileCache.get, he, List.find?_cons]
      omega
    · rw [hput]
      simp only [FileCache.invalidate, FileCache.get]
      rw [find_key_in_filter_ne]
      simp [he]
    · rw [hput]
      simp [FileCache.clear, FileCache.get, he, List.find?]
  · intro he
    simp [FileCache.get, he]

/-- The enabled cache configuration used by the C5 witness
(TTL 60, admission cutoff 10 bytes). -/
def cacheOn : FileCacheState := ⟨⟨100, 60, 10, true⟩, []⟩

/-- The disabled cache used by the C5 witness. -/
def cacheOff : FileCacheState := ⟨⟨100, 60, 10, false⟩, []⟩

/-- C5 witness: admission, TTL expiry, invalidation, clearing and the
disabled cache, all evaluated at concrete inputs. -/
theorem fileCache_admission_witness :
    (FileCache.put cacheOn "k" [0, 1, 2, 3, 4, 5, 6, 7, 8, 9, 10] (FileMetadata.new "k" 11 0 1) 0 =
        cacheOn) ∧
      (FileCache.get (FileCache.put cacheOn "k" [1, 2, 3] (FileMetadata.new "k" 3 0 1) 0) "k" 5 =
        some ([1, 2, 3], FileMetadata.new "k" 3 0 1)) ∧
      (FileCache.get (FileCache.put cacheOn "k" [1, 2, 3] (FileMetadata.new "k" 3 0 1) 0) "k" 60 =
        none) ∧
      (FileCache.get (FileCache.invalidate
          (FileCache.put cacheOn "k" [1, 2, 3] (FileMetadata.new "k" 3 0 1) 0) "k") "k" 5 =
        none) ∧
      (FileCache.get (FileCache.clear
          (FileCache.put cacheOn "k" [1, 2, 3] (FileMetadata.new "k" 3 0 1) 0)) "k" 5 =
        none) ∧
      (FileCache.get cacheOff "k" 5 = none) := by
  have h1 := fileCache_admission cacheOn "k" [0, 1, 2, 3, 4, 5, 6, 7, 8, 9, 10]
    (FileMetadata.new "k" 11 0 1) 0 5
  have h2 := fileCache_admission cacheOn "k" [1, 2, 3] (FileMetadata.new "k" 3 0 1) 0 5
  have h3 := fileCache_admission cacheOn "k" [1, 2, 3] (FileMetadata.new "k" 3 0 1) 0 60
  have h4 := fileCache_admission cacheOff "k" [1, 2, 3] (FileMetadata.new "k" 3 0 1) 0 5
  exact ⟨h1.1 (by decide), (h2.2.1 rfl (by decide)).1 (by decide),
    (h3.2.1 rfl (by decide)).2.1 (by decide), (h2.2.1 rfl (by decide)).2.2.1,
    (h2.2.1 rfl (by decide)).2.2.2, h4.2.2 rfl⟩

/- ===================== Local storage (src/storage/local.rs) ===================== -/

/-- The on-disk state of `LocalStorage` (`src/storage/local.rs`): the
payload files and the `"{key}.metadata.json"` sidecars under the base
directory, each modelled as a map keyed by the object key. -/
structure LocalState where
  payloads : List (String × Bytes)
  metas : List (String × FileMetadata)
deriving Repr, DecidableEq

namespace LocalStorage

/-- `LocalStorage::delete` (`src/storage/local.rs:88`): remove the
payload file if it exists, remove the metadata sidecar if it exists,
and return `Ok(())` unconditionally — there is no error path for an
absent key.  File-system I/O faults are outside the model. -/
def delete (s : LocalState) (key : String) : Except ApiError LocalState :=
  let s1 :=
    if s.payloads.any (fun e => e.1 == key) then
      { s with payloads := s.payloads.filter (fun e => e.1 ≠ key) }
    else s
  let s2 :=
    if s1.metas.any (fun e => e.1 == key) then
      { s1 with metas := s1.metas.filter (fun e => e.1 ≠ key) }
    else s1
  .ok s2

end LocalStorage

/- ===================== Claim C7 ===================== -/

/-- C7 (corrected), counterexample to the claim as stated: deleting a
key from an empty `LocalStorage` returns `Ok` with the state
unchanged — it does not fail with `FileNotFound`. -/
theorem localStorage_delete_absent_counterexample :
    LocalStorage.delete ⟨[], []⟩ "missing" = .ok ⟨[], []⟩ := rfl

/-- C7 (amended): for every key absent from `LocalStorage` (no payload
file and no metadata sidecar), `delete(key)` succeeds silently,
returning `Ok` with the storage unchanged, rather than failing with
`FileNotFound`. -/
theorem localStorage_delete_absent_is_noop (s : LocalState) (key : String)
    (hp : ∀ e ∈ s.payloads, e.1 ≠ key) (hm : ∀ e ∈ s.metas, e.1 ≠ key) :
    LocalStorage.delete s key = .ok s := by
  have h1 : s.payloads.any (fun e => e.1 == key) = false := by
    rw [List.any_eq_false]
    intro e he
    simp [hp e he]
  have h2 : s.metas.any (fun e => e.1 == key) = false := by
    rw [List.any_eq_false]
    intro e he
    simp [hm e he]
  simp [LocalStorage.delete, h1, h2]

/-- C7 witness: the silent no-op at a concrete nonempty state and an
absent key. -/
theorem localStorage_delete_absent_is_noop_witness :
    LocalStorage.delete ⟨[("other", [1])], []⟩ "missing" = .ok ⟨[("other", [1])], []⟩ :=
  localStorage_delete_absent_is_noop ⟨[("other", [1])], []⟩ "missing"
    (by decide) (by decide)
